import Mathlib

/-!
Shallow embedding of the claw-machine worker lifecycle coordinator
(backend task-status transition handler, respawn operation, worker
monitor, worker-context formatter and remote agent client), with
theorems checking the specification's claims against it.

External interactions (database writes, remote agent calls, the review
notification and broadcasts) are modelled by an explicit environment
carrying each call's outcome and by an effect trace recording the calls
the code issues, in source order.
-/

namespace ClawMachine

/-- Task status, `types.ts`: "backlog" | "in_progress" | "done". -/
inductive TaskStatus
  | backlog
  | in_progress
  | done
deriving DecidableEq, Repr

/-- Worker status recorded on a task, `types.ts` (`null` is `Option.none`). -/
inductive WStatus
  | starting
  | running
  | reviewing
  | closed
deriving DecidableEq, Repr

/-- The task row as persisted by the store (`db.ts` task columns relevant to
the coordinator; `created_at`, `target_branch` and `merge_strategy` are never
read or written by the coordinator and are omitted). -/
structure Task where
  id : String
  title : String
  description : String
  status : TaskStatus
  assignedWorker : Option String := none
  workerStatus : Option WStatus := none
  workerContext : Option String := none
  projectId : String
  logs : Option String := none
  startedAt : Option String := none
  completedAt : Option String := none
  updatedAt : String := ""
deriving DecidableEq, Repr

/-- `UpdateTaskInput` (`schemas.ts` fields handled by `db.ts updateTask`):
an outer `none` means the field is absent from the update (JS `undefined`),
`some none` means the field is set to SQL `NULL`. -/
structure UpdateTaskInput where
  title : Option String := none
  description : Option String := none
  status : Option TaskStatus := none
  assignedWorker : Option (Option String) := none
  workerContext : Option (Option String) := none
  workerStatus : Option (Option WStatus) := none
  projectId : Option String := none
  logs : Option (Option String) := none
  startedAt : Option (Option String) := none
  completedAt : Option (Option String) := none
deriving DecidableEq, Repr

/-- `db.ts updateTask`: true when no recognised field is present, in which
case the row (including `updated_at`) is returned untouched. -/
def UpdateTaskInput.isEmpty (u : UpdateTaskInput) : Bool :=
  u.title.isNone && u.description.isNone && u.status.isNone &&
  u.assignedWorker.isNone && u.workerContext.isNone && u.workerStatus.isNone &&
  u.projectId.isNone && u.logs.isNone && u.startedAt.isNone && u.completedAt.isNone

/-- `db.ts updateTask` applied to the task's row: every present field is
written, and `updated_at` is stamped whenever at least one field is present. -/
def applyUpdate (now : String) (t : Task) (u : UpdateTaskInput) : Task :=
  if u.isEmpty then t
  else
    { t with
      title := u.title.getD t.title
      description := u.description.getD t.description
      status := u.status.getD t.status
      assignedWorker := u.assignedWorker.getD t.assignedWorker
      workerContext := u.workerContext.getD t.workerContext
      workerStatus := u.workerStatus.getD t.workerStatus
      projectId := u.projectId.getD t.projectId
      logs := u.logs.getD t.logs
      startedAt := u.startedAt.getD t.startedAt
      completedAt := u.completedAt.getD t.completedAt
      updatedAt := now }

/-- JavaScript truthiness of a nullable/optional string: `null`, `undefined`
and `""` are falsy. -/
def truthyStr : Option String → Bool
  | none => false
  | some s => !(s = "")

/-- Content of a worker log message. The source types it as `string` but
`formatWorkerContext` defends against non-string values; `nonString` carries
the `JSON.stringify` rendering of such a value. -/
inductive LogContent
  | str (s : String)
  | nonString (json : String)
deriving DecidableEq, Repr

/-- A worker log message (`WorkerLog`); the role is a string because the
remote payload's role field is only cast, not validated. -/
structure WorkerLog where
  role : String
  content : LogContent
  timestamp : Option String := none
deriving DecidableEq, Repr

/-- `config.ts`: number of trailing messages kept in a worker context. -/
def CONTEXT_MESSAGE_LIMIT : Nat := 10

/-- `config.ts`: character cap applied to each message's content. -/
def CONTENT_TRUNCATE_LENGTH : Nat := 1000

/-- JavaScript `s.slice(0, n)`: the first `n` characters of `s`. -/
def jsSliceTo (n : Nat) (s : String) : String := ⟨s.data.take n⟩

/-- JavaScript `xs.slice(-n)`: the last `min n xs.length` elements. -/
def lastN (n : Nat) (xs : List α) : List α := xs.drop (xs.length - n)

/-- The map body of `formatWorkerContext`: truncate the content (after
stringifying non-string content) and render as `[role]: content`. -/
def renderLog (log : WorkerLog) : String :=
  let content :=
    match log.content with
    | .str s => jsSliceTo CONTENT_TRUNCATE_LENGTH s
    | .nonString j => jsSliceTo CONTENT_TRUNCATE_LENGTH j
  "[" ++ log.role ++ "]: " ++ content

/-- `workerContext.ts formatWorkerContext`: `null` on empty input, otherwise
the last `CONTEXT_MESSAGE_LIMIT` messages rendered and joined by newlines. -/
def formatWorkerContext (logs : List WorkerLog) : Option String :=
  if logs.isEmpty then none
  else some (String.intercalate "\n" ((lastN CONTEXT_MESSAGE_LIMIT logs).map renderLog))

/-- `config.ts WORKTREE_NOTE` (verbatim). -/
def WORKTREE_NOTE : String :=
  "**IMPORTANT:** You are in a fresh git worktree with no dependencies installed. Before running any package scripts (tsc, build, test, lint, etc.), you MUST install dependencies first: Check package.json to see which package manager the project uses (`npm install`, `pnpm install`, `bun install`, etc.)"

/-- `promptBuilder.ts buildWorkerPrompt`. -/
def buildWorkerPrompt (task : Task) : String :=
  let basePrompt :=
    "Task: " ++ task.title ++ "\n\n" ++
    (if task.description = "" then "Complete this task." else task.description) ++
    "\n\n" ++ WORKTREE_NOTE
  match task.workerContext with
  | some ctx =>
    if ctx = "" then basePrompt
    else basePrompt ++ "\n\n--- Previous Context ---\n" ++ ctx
  | none => basePrompt

/-- Outcome of a `spawnWorker` call: a resolved `{success:true, workerId?}`,
a resolved `{success:false, error?}`, or a rejected promise carrying an
`Error` with the given message. -/
inductive SpawnOutcome
  | ok (workerId : Option String)
  | failed (error : Option String)
  | thrown (msg : String)
deriving DecidableEq, Repr

/-- Environment of one coordinator call: clock value, the project-path
lookup result, and the outcomes of the remote calls the code may issue.
`stringifyLogs` stands for `JSON.stringify` on a log array. The result of
`closeWorker` is not part of the environment because the coordinator ignores
it (any rejection is caught and swallowed after all updates of the enclosing
try block have already been recorded). -/
structure Env where
  now : String
  projectPath : Option String := none
  spawn : SpawnOutcome := .ok none
  logs : Except String (List WorkerLog) := .ok []
  stringifyLogs : List WorkerLog → String := fun _ => "[]"

/-- One observable action of a coordinator or monitor call, in source order. -/
inductive Effect
  | dbUpdate (taskId : String) (input : UpdateTaskInput)
  | spawnCall (taskId : String) (prompt : String) (projectPath : String)
  | closeCall (workerId : String)
  | getLogsCall (workerId : String)
  | notifyCall (workerId : String) (taskId : String)
  | broadcastTasksCall
  | broadcastWorkersCall
deriving DecidableEq, Repr

/-- Result type of `handleStatusChange` (`taskOperations.ts`). -/
inductive StatusChangeResult
  | ok (updates : UpdateTaskInput)
  | err (error : String) (status : Nat)
deriving DecidableEq, Repr

/-- The message of the error thrown on spawn failure:
`result.error || "Failed to spawn worker for unknown reason"`
(JS `||`, so an empty error string also falls back to the default). -/
def spawnFailMessage (e : Option String) : String :=
  match e with
  | some s => if s = "" then "Failed to spawn worker for unknown reason" else s
  | none => "Failed to spawn worker for unknown reason"

/-- The `newStatus === "in_progress"` block of `handleStatusChange`:
double-spawn guard, eager `starting` write, project-path lookup, spawn,
and spawn-failure cleanup. -/
def inProgressTransition (env : Env) (task : Task) : StatusChangeResult × List Effect :=
  if task.workerStatus = some .starting then
    (.err "Worker already starting for this task" 409, [])
  else if truthyStr task.assignedWorker && (task.workerStatus == some WStatus.running) then
    (.err "Worker already running for this task" 409, [])
  else
    let updates : UpdateTaskInput := { startedAt := some (some env.now) }
    let markStarting := Effect.dbUpdate task.id { workerStatus := some (some .starting) }
    if truthyStr env.projectPath then
      let spawnEff := Effect.spawnCall task.id (buildWorkerPrompt task) (env.projectPath.getD "")
      match env.spawn with
      | .ok wid =>
        if truthyStr wid then
          (.ok { updates with
                   assignedWorker := some (some (wid.getD ""))
                   workerStatus := some (some .running) },
           [markStarting, spawnEff])
        else
          (.ok updates, [markStarting, spawnEff])
      | .failed e =>
        (.err (spawnFailMessage e) 400,
         [markStarting, spawnEff, Effect.dbUpdate task.id { workerStatus := some none }])
      | .thrown msg =>
        (.err msg 400,
         [markStarting, spawnEff, Effect.dbUpdate task.id { workerStatus := some none }])
    else
      (.err "Project not found" 404, [markStarting])

/-- The "save context" step shared by the pause transition and respawn:
format the fetched logs and keep the result only when it is truthy
(`if (context) updates.workerContext = context`). -/
def contextUpdate (env : Env) : UpdateTaskInput :=
  match env.logs with
  | .error _ => {}
  | .ok logs =>
    match formatWorkerContext logs with
    | some c => if c = "" then {} else { workerContext := some (some c) }
    | none => {}

/-- The `oldStatus === "in_progress" && newStatus === "backlog"` block of
`handleStatusChange`: best-effort context save and close; a log-fetch
rejection skips both the context and the close, a close rejection leaves the
already-recorded context in place; `assignedWorker`/`workerStatus` are always
cleared. -/
def pauseTransition (env : Env) (task : Task) : StatusChangeResult × List Effect :=
  if truthyStr task.assignedWorker then
    let w := task.assignedWorker.getD ""
    match env.logs with
    | .error _ =>
      (.ok { assignedWorker := some none, workerStatus := some none },
       [Effect.getLogsCall w])
    | .ok _ =>
      (.ok { contextUpdate env with assignedWorker := some none, workerStatus := some none },
       [Effect.getLogsCall w, Effect.closeCall w])
  else
    (.ok { assignedWorker := some none, workerStatus := some none }, [])

/-- The `newStatus === "done"` block of `handleStatusChange`: stamp
`completedAt`, best-effort log save unless logs already present, best-effort
close, clear `assignedWorker`/`workerContext` and set `workerStatus=closed`. -/
def doneTransition (env : Env) (task : Task) : StatusChangeResult × List Effect :=
  let updates : UpdateTaskInput := { completedAt := some (some env.now) }
  if truthyStr task.assignedWorker then
    let w := task.assignedWorker.getD ""
    let hasExistingLogs :=
      truthyStr task.logs && !(task.logs == some "null") && !(task.logs == some "[]")
    let fetched : Option (Option String) × List Effect :=
      if hasExistingLogs then (none, [])
      else
        match env.logs with
        | .error _ => (none, [Effect.getLogsCall w])
        | .ok logs =>
          if logs.length > 0 then
            (some (some (env.stringifyLogs logs)), [Effect.getLogsCall w])
          else (none, [Effect.getLogsCall w])
    (.ok { updates with
             logs := fetched.1
             assignedWorker := some none
             workerStatus := some (some .closed)
             workerContext := some none },
     fetched.2 ++ [Effect.closeCall w])
  else
    (.ok { updates with
             assignedWorker := some none
             workerStatus := some (some .closed)
             workerContext := some none }, [])

/-- `taskOperations.ts handleStatusChange`. The source's three sequential
`if` blocks are mutually exclusive (they require `newStatus` to be
`in_progress`, `backlog` and `done` respectively), so they are rendered as a
match on `newStatus`. -/
def handleStatusChange (env : Env) (task : Task) (oldStatus : Option TaskStatus)
    (newStatus : TaskStatus) : StatusChangeResult × List Effect :=
  if oldStatus = some newStatus then (.ok {}, [])
  else
    match newStatus with
    | .in_progress => inProgressTransition env task
    | .backlog =>
      if oldStatus = some .in_progress then pauseTransition env task
      else (.ok {}, [])
    | .done => doneTransition env task

/-- Result type of `respawnTaskWorker` (`taskOperations.ts`). -/
inductive RespawnResult
  | succeeded (workerId : String) (taskId : String)
  | failure (error : String)
deriving DecidableEq, Repr

/-- The persisted row of the given task after replaying the database writes
of an effect trace, in order. -/
def applyDbWrites (now : String) (t : Task) : List Effect → Task
  | [] => t
  | .dbUpdate tid u :: rest =>
    applyDbWrites now (if tid = t.id then applyUpdate now t u else t) rest
  | _ :: rest => applyDbWrites now t rest

/-- The successive persisted states of the given task's row along an effect
trace: one entry per database write hitting the row. -/
def dbWriteRows (now : String) (t : Task) : List Effect → List Task
  | [] => []
  | .dbUpdate tid u :: rest =>
    if tid = t.id then
      let t2 := applyUpdate now t u
      t2 :: dbWriteRows now t2 rest
    else dbWriteRows now t rest
  | _ :: rest => dbWriteRows now t rest

/-- `taskOperations.ts respawnTaskWorker`, acting on the fetched task row
(the `getTaskById` null-check at entry issues no writes and is omitted):
save context and close best-effort, persist `closed`/unassigned, refetch,
persist `starting`, then spawn; every failure after the mark-starting write
reverts to `closed`/unassigned. -/
def respawnTaskWorker (env : Env) (task : Task) : RespawnResult × List Effect :=
  if task.status ≠ .in_progress then
    (.failure "Can only respawn workers for in-progress tasks", [])
  else
    let pre : UpdateTaskInput × List Effect :=
      if truthyStr task.assignedWorker then
        let w := task.assignedWorker.getD ""
        ({ contextUpdate env with workerStatus := some (some .closed), assignedWorker := some none },
         [Effect.getLogsCall w, Effect.closeCall w])
      else ({}, [])
    let applyEffs : List Effect :=
      if pre.1.isEmpty then [] else [Effect.dbUpdate task.id pre.1]
    let task1 := applyDbWrites env.now task applyEffs
    let markEff := Effect.dbUpdate task.id ({ workerStatus := some (some .starting) } : UpdateTaskInput)
    let effs0 := pre.2 ++ applyEffs ++ [markEff]
    let revert : UpdateTaskInput := { workerStatus := some (some .closed), assignedWorker := some none }
    if truthyStr env.projectPath then
      let spawnEff :=
        Effect.spawnCall task.id (buildWorkerPrompt task1) (env.projectPath.getD "")
      match env.spawn with
      | .ok wid =>
        if truthyStr wid then
          (.succeeded (wid.getD "") task.id,
           effs0 ++ [spawnEff, Effect.dbUpdate task.id
             { assignedWorker := some (some (wid.getD "")), workerStatus := some (some .running) }])
        else
          (.failure "Failed to spawn worker",
           effs0 ++ [spawnEff, Effect.dbUpdate task.id revert])
      | .failed _ =>
        (.failure "Failed to spawn worker",
         effs0 ++ [spawnEff, Effect.dbUpdate task.id revert])
      | .thrown _ =>
        (.failure "Failed to spawn worker",
         effs0 ++ [spawnEff, Effect.dbUpdate task.id revert])
    else
      (.failure "Project not found", effs0 ++ [Effect.dbUpdate task.id revert])

/-- The persisted states a task's row passes through when the routing layer
handles a status transition (`routes/tasks.ts` PATCH and POST): the call's
own intermediate writes, then — on success — the route's single write of
`{status: newStatus, ...updates}` applied to the current row. On a rejected
call only the call's own writes are visible (the route writes nothing). -/
def statusChangeRows (env : Env) (t : Task) (newStatus : TaskStatus) : List Task :=
  let r := handleStatusChange env t (some t.status) newStatus
  let mids := dbWriteRows env.now t r.2
  match r.1 with
  | .ok updates =>
    mids ++ [applyUpdate env.now (applyDbWrites env.now t r.2)
      { updates with status := some newStatus }]
  | .err _ _ => mids

/-- The persisted states a task's row passes through during a respawn. -/
def respawnRows (env : Env) (t : Task) : List Task :=
  dbWriteRows env.now t (respawnTaskWorker env t).2

/-- Task states reachable through the coordinator's operations: a freshly
created row (`routes/tasks.ts` always creates with no assigned worker), any
persisted state during and after a route-driven status transition (the route
passes the row's current status as `oldStatus`), any state during a respawn,
and the monitor's reviewing-update (`workerMonitor.ts` writes
`workerStatus = reviewing` plus optionally `logs` to a task it verified to be
`in_progress`). -/
inductive Reach : Task → Prop
  | init (t : Task) : t.assignedWorker = none → Reach t
  | statusChange (t : Task) (env : Env) (s : TaskStatus) (t2 : Task) :
      Reach t → t2 ∈ statusChangeRows env t s → Reach t2
  | respawn (t : Task) (env : Env) (t2 : Task) :
      Reach t → t2 ∈ respawnRows env t → Reach t2
  | monitorReviewing (t : Task) (now : String) (logsUpd : Option (Option String)) :
      Reach t → t.status = .in_progress →
      Reach (applyUpdate now t { workerStatus := some (some .reviewing), logs := logsUpd })

/-- The claimed binding invariant: a bound worker implies an active worker
status. -/
def WorkerInv (t : Task) : Prop :=
  t.assignedWorker ≠ none →
    t.workerStatus = some .starting ∨ t.workerStatus = some .running ∨
    t.workerStatus = some .reviewing

/-- Auxiliary strengthening of `WorkerInv` that is inductive over the
coordinator's steps: a bound worker moreover implies the task is
`in_progress`. -/
def StrongInv (t : Task) : Prop :=
  t.assignedWorker ≠ none →
    (t.workerStatus = some .starting ∨ t.workerStatus = some .running ∨
     t.workerStatus = some .reviewing) ∧ t.status = .in_progress

theorem isEmpty_none_fields (u : UpdateTaskInput) (h : u.isEmpty = true) :
    u.status = none ∧ u.assignedWorker = none ∧ u.workerStatus = none := by
  simp only [UpdateTaskInput.isEmpty, Bool.and_eq_true, Option.isNone_iff_eq_none] at h
  exact ⟨h.1.1.1.1.1.1.1.2, h.1.1.1.1.1.1.2, h.1.1.1.1.2⟩

theorem applyUpdate_assignedWorker (now : String) (t : Task) (u : UpdateTaskInput) :
    (applyUpdate now t u).assignedWorker = u.assignedWorker.getD t.assignedWorker := by
  unfold applyUpdate
  split
  · rename_i h
    rw [(isEmpty_none_fields u h).2.1]
    rfl
  · rfl

theorem applyUpdate_workerStatus (now : String) (t : Task) (u : UpdateTaskInput) :
    (applyUpdate now t u).workerStatus = u.workerStatus.getD t.workerStatus := by
  unfold applyUpdate
  split
  · rename_i h
    rw [(isEmpty_none_fields u h).2.2]
    rfl
  · rfl

theorem applyUpdate_status (now : String) (t : Task) (u : UpdateTaskInput) :
    (applyUpdate now t u).status = u.status.getD t.status := by
  unfold applyUpdate
  split
  · rename_i h
    rw [(isEmpty_none_fields u h).1]
    rfl
  · rfl

theorem strongInv_bound_in_progress (t : Task) (hInv : StrongInv t)
    (hst : t.status ≠ .in_progress) : t.assignedWorker = none := by
  by_contra haw
  exact hst (hInv haw).2

theorem applyUpdate_id (now : String) (t : Task) (u : UpdateTaskInput) :
    (applyUpdate now t u).id = t.id := by
  unfold applyUpdate
  split
  · rfl
  · rfl

theorem contextUpdate_status (env : Env) : (contextUpdate env).status = none := by
  unfold contextUpdate
  split
  · rfl
  · split
    · split <;> rfl
    · rfl

theorem contextUpdate_assignedWorker (env : Env) :
    (contextUpdate env).assignedWorker = none := by
  unfold contextUpdate
  split
  · rfl
  · split
    · split <;> rfl
    · rfl

theorem contextUpdate_workerStatus (env : Env) :
    (contextUpdate env).workerStatus = none := by
  unfold contextUpdate
  split
  · rfl
  · split
    · split <;> rfl
    · rfl

theorem strongInv_rows_inProgress (env : Env) (t t2 : Task)
    (hst : t.status ≠ .in_progress) (haw : t.assignedWorker = none)
    (hmem : t2 ∈ statusChangeRows env t .in_progress) : StrongInv t2 := by
  have hne : ¬ ((some t.status : Option TaskStatus) = some TaskStatus.in_progress) := by
    simp [hst]
  unfold statusChangeRows handleStatusChange at hmem
  rw [if_neg hne] at hmem
  unfold inProgressTransition at hmem
  by_cases h1 : t.workerStatus = some WStatus.starting
  · rw [if_pos h1] at hmem
    simp [dbWriteRows] at hmem
  · rw [if_neg h1] at hmem
    have hg2 : ¬ ((truthyStr t.assignedWorker && (t.workerStatus == some WStatus.running)) = true) := by
      rw [haw]
      simp [truthyStr]
    rw [if_neg hg2] at hmem
    by_cases h2 : truthyStr env.projectPath = true
    · rw [if_pos h2] at hmem
      rcases hspawn : env.spawn with wid | e | msg
      · rw [hspawn] at hmem
        dsimp only at hmem
        by_cases h3 : truthyStr wid = true
        · rw [if_pos h3] at hmem
          simp [dbWriteRows, applyDbWrites, applyUpdate_id] at hmem
          rcases hmem with h | h
          · subst h
            intro hb
            simp [applyUpdate_assignedWorker, haw] at hb
          · subst h
            intro _
            refine ⟨Or.inr (Or.inl ?_), ?_⟩
            · simp [applyUpdate_workerStatus, contextUpdate_workerStatus]
            · simp [applyUpdate_status]

        · rw [if_neg h3] at hmem
          simp [dbWriteRows, applyDbWrites, applyUpdate_id] at hmem
          rcases hmem with h | h
          · subst h
            intro hb
            simp [applyUpdate_assignedWorker, haw] at hb
          · subst h
            intro hb
            simp [applyUpdate_assignedWorker, haw] at hb
      · rw [hspawn] at hmem
        dsimp only at hmem
        simp [dbWriteRows, applyDbWrites, applyUpdate_id] at hmem
        rcases hmem with h | h <;>
          · subst h
            intro hb
            simp [applyUpdate_assignedWorker, haw] at hb
      · rw [hspawn] at hmem
        dsimp only at hmem
        simp [dbWriteRows, applyDbWrites, applyUpdate_id] at hmem
        rcases hmem with h | h <;>
          · subst h
            intro hb
            simp [applyUpdate_assignedWorker, haw] at hb
    · rw [if_neg h2] at hmem
      dsimp only at hmem
      simp [dbWriteRows, applyDbWrites, applyUpdate_id] at hmem
      subst hmem
      intro hb
      simp [applyUpdate_assignedWorker, haw] at hb

theorem strongInv_rows_pause (env : Env) (t t2 : Task)
    (hst : t.status = .in_progress)
    (hmem : t2 ∈ statusChangeRows env t .backlog) : StrongInv t2 := by
  unfold statusChangeRows handleStatusChange at hmem
  rw [if_neg (by simp [hst]), hst] at hmem
  rw [if_pos rfl] at hmem
  unfold pauseTransition at hmem
  by_cases ha : truthyStr t.assignedWorker = true
  · rw [if_pos ha] at hmem
    rcases hlog : env.logs with err | logs
    · rw [hlog] at hmem
      dsimp only at hmem
      simp [dbWriteRows, applyDbWrites, applyUpdate_id] at hmem
      subst hmem
      intro hb
      simp [applyUpdate_assignedWorker, contextUpdate_assignedWorker] at hb
    · rw [hlog] at hmem
      dsimp only at hmem
      simp [dbWriteRows, applyDbWrites, applyUpdate_id] at hmem
      subst hmem
      intro hb
      simp [applyUpdate_assignedWorker, contextUpdate_assignedWorker] at hb
  · rw [if_neg ha] at hmem
    simp [dbWriteRows, applyDbWrites, applyUpdate_id] at hmem
    subst hmem
    intro hb
    simp [applyUpdate_assignedWorker, contextUpdate_assignedWorker] at hb

theorem strongInv_rows_done (env : Env) (t t2 : Task)
    (hne2 : t.status ≠ .done)
    (hmem : t2 ∈ statusChangeRows env t .done) : StrongInv t2 := by
  unfold statusChangeRows handleStatusChange at hmem
  rw [if_neg (by simp [hne2])] at hmem
  unfold doneTransition at hmem
  dsimp only at hmem
  by_cases ha : truthyStr t.assignedWorker = true
  · rw [if_pos ha] at hmem
    dsimp only at hmem
    by_cases hel : (truthyStr t.logs && !(t.logs == some "null") && !(t.logs == some "[]")) = true
    · rw [if_pos hel] at hmem
      dsimp only at hmem
      simp [dbWriteRows, applyDbWrites, applyUpdate_id] at hmem
      subst hmem
      intro hb
      simp [applyUpdate_assignedWorker, contextUpdate_assignedWorker] at hb
    · rw [if_neg hel] at hmem
      rcases hlog : env.logs with err | logs
      · rw [hlog] at hmem
        dsimp only at hmem
        simp [dbWriteRows, applyDbWrites, applyUpdate_id] at hmem
        subst hmem
        intro hb
        simp [applyUpdate_assignedWorker, contextUpdate_assignedWorker] at hb
      · rw [hlog] at hmem
        dsimp only at hmem
        by_cases hlen : logs.length > 0
        · rw [if_pos hlen] at hmem
          simp [dbWriteRows, applyDbWrites, applyUpdate_id] at hmem
          subst hmem
          intro hb
          simp [applyUpdate_assignedWorker, contextUpdate_assignedWorker] at hb
        · rw [if_neg hlen] at hmem
          simp [dbWriteRows, applyDbWrites, applyUpdate_id] at hmem
          subst hmem
          intro hb
          simp [applyUpdate_assignedWorker, contextUpdate_assignedWorker] at hb
  · rw [if_neg ha] at hmem
    simp [dbWriteRows, applyDbWrites, applyUpdate_id] at hmem
    subst hmem
    intro hb
    simp [applyUpdate_assignedWorker, contextUpdate_assignedWorker] at hb

theorem strongInv_statusChangeRows (env : Env) (t t2 : Task) (s : TaskStatus)
    (hInv : StrongInv t) (hmem : t2 ∈ statusChangeRows env t s) : StrongInv t2 := by
  by_cases hsame : t.status = s
  · unfold statusChangeRows handleStatusChange at hmem
    rw [if_pos (by rw [hsame])] at hmem
    simp [dbWriteRows, applyDbWrites, applyUpdate_id] at hmem
    subst hmem
    intro hb
    rw [applyUpdate_assignedWorker] at hb
    simp only [Option.getD_none] at hb
    obtain ⟨hws, hstat⟩ := hInv hb
    constructor
    · rw [applyUpdate_workerStatus]
      simpa using hws
    · rw [applyUpdate_status]
      simp only [Option.getD_some]
      rw [← hsame]
      exact hstat
  · cases s with
    | in_progress =>
      exact strongInv_rows_inProgress env t t2 hsame
        (strongInv_bound_in_progress t hInv hsame) hmem
    | backlog =>
      by_cases hip : t.status = .in_progress
      · exact strongInv_rows_pause env t t2 hip hmem
      · unfold statusChangeRows handleStatusChange at hmem
        rw [if_neg (by simp [hsame])] at hmem
        rw [if_neg (by simp [hip])] at hmem
        simp [dbWriteRows, applyDbWrites, applyUpdate_id] at hmem
        subst hmem
        intro hb
        rw [applyUpdate_assignedWorker] at hb
        simp only [Option.getD_none] at hb
        exact absurd (hInv hb).2 hip
    | done =>
      exact strongInv_rows_done env t t2 hsame hmem

theorem strongInv_respawnRows (env : Env) (t t2 : Task)
    (hInv : StrongInv t) (hmem : t2 ∈ respawnRows env t) : StrongInv t2 := by
  unfold respawnRows respawnTaskWorker at hmem
  by_cases hst : t.status = .in_progress
  · rw [if_neg (by simp [hst])] at hmem
    dsimp only at hmem
    by_cases ha : truthyStr t.assignedWorker = true
    · rw [if_pos ha] at hmem
      dsimp only at hmem
      by_cases h2 : truthyStr env.projectPath = true
      · rw [if_pos h2] at hmem
        rcases hspawn : env.spawn with wid | e | msg
        · rw [hspawn] at hmem
          dsimp only at hmem
          by_cases h3 : truthyStr wid = true
          · rw [if_pos h3] at hmem
            simp [UpdateTaskInput.isEmpty, dbWriteRows, applyDbWrites, applyUpdate_id,
              contextUpdate_status, contextUpdate_assignedWorker, contextUpdate_workerStatus] at hmem
            rcases hmem with h | h | h <;> subst h
            · intro hb
              simp [applyUpdate_assignedWorker, contextUpdate_assignedWorker] at hb
            · intro hb
              simp [applyUpdate_assignedWorker, contextUpdate_assignedWorker] at hb
            · intro _
              refine ⟨Or.inr (Or.inl ?_), ?_⟩
              · simp [applyUpdate_workerStatus, contextUpdate_workerStatus]
              · simp [applyUpdate_status, hst, contextUpdate_status]
          · rw [if_neg h3] at hmem
            simp [UpdateTaskInput.isEmpty, dbWriteRows, applyDbWrites, applyUpdate_id,
              contextUpdate_status, contextUpdate_assignedWorker, contextUpdate_workerStatus] at hmem
            rcases hmem with h | h | h <;> subst h <;>
              · intro hb
                simp [applyUpdate_assignedWorker, contextUpdate_assignedWorker] at hb
        · rw [hspawn] at hmem
          dsimp only at hmem
          simp [UpdateTaskInput.isEmpty, dbWriteRows, applyDbWrites, applyUpdate_id,
              contextUpdate_status, contextUpdate_assignedWorker, contextUpdate_workerStatus] at hmem
          rcases hmem with h | h | h <;> subst h <;>
            · intro hb
              simp [applyUpdate_assignedWorker, contextUpdate_assignedWorker] at hb
        · rw [hspawn] at hmem
          dsimp only at hmem
          simp [UpdateTaskInput.isEmpty, dbWriteRows, applyDbWrites, applyUpdate_id,
              contextUpdate_status, contextUpdate_assignedWorker, contextUpdate_workerStatus] at hmem
          rcases hmem with h | h | h <;> subst h <;>
            · intro hb
              simp [applyUpdate_assignedWorker, contextUpdate_assignedWorker] at hb
      · rw [if_neg h2] at hmem
        simp [UpdateTaskInput.isEmpty, dbWriteRows, applyDbWrites, applyUpdate_id,
              contextUpdate_status, contextUpdate_assignedWorker, contextUpdate_workerStatus] at hmem
        rcases hmem with h | h | h <;> subst h <;>
          · intro hb
            simp [applyUpdate_assignedWorker, contextUpdate_assignedWorker] at hb
    · rw [if_neg ha] at hmem
      dsimp only at hmem
      by_cases h2 : truthyStr env.projectPath = true
      · rw [if_pos h2] at hmem
        rcases hspawn : env.spawn with wid | e | msg
        · rw [hspawn] at hmem
          dsimp only at hmem
          by_cases h3 : truthyStr wid = true
          · rw [if_pos h3] at hmem
            simp [UpdateTaskInput.isEmpty, dbWriteRows, applyDbWrites, applyUpdate_id,
              contextUpdate_status, contextUpdate_assignedWorker, contextUpdate_workerStatus] at hmem
            rcases hmem with h | h <;> subst h
            · intro _
              refine ⟨Or.inl ?_, ?_⟩
              · simp [applyUpdate_workerStatus, contextUpdate_workerStatus]
              · simp [applyUpdate_status, hst, contextUpdate_status]
            · intro _
              refine ⟨Or.inr (Or.inl ?_), ?_⟩
              · simp [applyUpdate_workerStatus, contextUpdate_workerStatus]
              · simp [applyUpdate_status, hst, contextUpdate_status]
          · rw [if_neg h3] at hmem
            simp [UpdateTaskInput.isEmpty, dbWriteRows, applyDbWrites, applyUpdate_id,
              contextUpdate_status, contextUpdate_assignedWorker, contextUpdate_workerStatus] at hmem
            rcases hmem with h | h <;> subst h
            · intro _
              refine ⟨Or.inl ?_, ?_⟩
              · simp [applyUpdate_workerStatus, contextUpdate_workerStatus]
              · simp [applyUpdate_status, hst, contextUpdate_status]
            · intro hb
              simp [applyUpdate_assignedWorker, contextUpdate_assignedWorker] at hb
        · rw [hspawn] at hmem
          dsimp only at hmem
          simp [UpdateTaskInput.isEmpty, dbWriteRows, applyDbWrites, applyUpdate_id,
              contextUpdate_status, contextUpdate_assignedWorker, contextUpdate_workerStatus] at hmem
          rcases hmem with h | h <;> subst h
          · intro _
            refine ⟨Or.inl ?_, ?_⟩
            · simp [applyUpdate_workerStatus, contextUpdate_workerStatus]
            · simp [applyUpdate_status, hst, contextUpdate_status]
          · intro hb
            simp [applyUpdate_assignedWorker, contextUpdate_assignedWorker] at hb
        · rw [hspawn] at hmem
          dsimp only at hmem
          simp [UpdateTaskInput.isEmpty, dbWriteRows, applyDbWrites, applyUpdate_id,
              contextUpdate_status, contextUpdate_assignedWorker, contextUpdate_workerStatus] at hmem
          rcases hmem with h | h <;> subst h
          · intro _
            refine ⟨Or.inl ?_, ?_⟩
            · simp [applyUpdate_workerStatus, contextUpdate_workerStatus]
            · simp [applyUpdate_status, hst, contextUpdate_status]
          · intro hb
            simp [applyUpdate_assignedWorker, contextUpdate_assignedWorker] at hb
      · rw [if_neg h2] at hmem
        simp [UpdateTaskInput.isEmpty, dbWriteRows, applyDbWrites, applyUpdate_id,
              contextUpdate_status, contextUpdate_assignedWorker, contextUpdate_workerStatus] at hmem
        rcases hmem with h | h <;> subst h
        · intro _
          refine ⟨Or.inl ?_, ?_⟩
          · simp [applyUpdate_workerStatus, contextUpdate_workerStatus]
          · simp [applyUpdate_status, hst, contextUpdate_status]
        · intro hb
          simp [applyUpdate_assignedWorker, contextUpdate_assignedWorker] at hb
  · rw [if_pos (by simp [hst])] at hmem
    simp [dbWriteRows] at hmem

theorem strongInv_monitorStep (t : Task) (now : String) (l : Option (Option String))
    (hInv : StrongInv t) (hst : t.status = .in_progress) :
    StrongInv (applyUpdate now t { workerStatus := some (some .reviewing), logs := l }) := by
  intro _
  refine ⟨Or.inr (Or.inr ?_), ?_⟩
  · simp [applyUpdate_workerStatus, contextUpdate_workerStatus]
  · simp [applyUpdate_status, hst, contextUpdate_status]

theorem strongInv_reach (t : Task) (h : Reach t) : StrongInv t := by
  induction h with
  | init t ha =>
    intro hb
    exact absurd ha hb
  | statusChange t env s t2 _ hmem ih =>
    exact strongInv_statusChangeRows env t t2 s ih hmem
  | respawn t env t2 _ hmem ih =>
    exact strongInv_respawnRows env t t2 ih hmem
  | monitorReviewing t now l _ hst ih =>
    exact strongInv_monitorStep t now l ih hst

theorem doneTransition_updates (env : Env) (t : Task) :
    ∃ u, (doneTransition env t).1 = .ok u
      ∧ u.assignedWorker = some none ∧ u.workerStatus = some (some .closed) := by
  unfold doneTransition
  by_cases ha : truthyStr t.assignedWorker = true
  · rw [if_pos ha]
    dsimp only
    exact ⟨_, rfl, rfl, rfl⟩
  · rw [if_neg ha]
    exact ⟨_, rfl, rfl, rfl⟩

theorem pauseTransition_updates (env : Env) (t : Task) :
    ∃ u, (pauseTransition env t).1 = .ok u
      ∧ u.assignedWorker = some none ∧ u.workerStatus = some none := by
  unfold pauseTransition
  by_cases ha : truthyStr t.assignedWorker = true
  · rw [if_pos ha]
    dsimp only
    split
    · exact ⟨_, rfl, rfl, rfl⟩
    · exact ⟨_, rfl, rfl, rfl⟩
  · rw [if_neg ha]
    exact ⟨_, rfl, rfl, rfl⟩

/-- C3: every task state reachable through the coordinator's operations
(status transitions, respawn, the monitor's reviewing-update) satisfies
"assignedWorker non-null implies workerStatus ∈ {starting, running,
reviewing}"; moreover every transition to done produces an update set with
assignedWorker = null and workerStatus = closed, and every
in_progress → backlog pause produces an update set with
assignedWorker = null and workerStatus = null. -/
theorem reach_worker_binding_invariant :
    (∀ t : Task, Reach t → WorkerInv t)
    ∧ (∀ (env : Env) (t : Task) (old : Option TaskStatus), old ≠ some .done →
        ∃ u, (handleStatusChange env t old .done).1 = .ok u
          ∧ u.assignedWorker = some none ∧ u.workerStatus = some (some .closed))
    ∧ (∀ (env : Env) (t : Task),
        ∃ u, (handleStatusChange env t (some .in_progress) .backlog).1 = .ok u
          ∧ u.assignedWorker = some none ∧ u.workerStatus = some none) := by
  refine ⟨fun t h hb => (strongInv_reach t h hb).1, ?_, ?_⟩
  · intro env t old hold
    unfold handleStatusChange
    rw [if_neg hold]
    exact doneTransition_updates env t
  · intro env t
    unfold handleStatusChange
    rw [if_neg (by decide)]
    rw [if_pos rfl]
    exact pauseTransition_updates env t

/-- Concrete instantiation used by the witness of the C3 theorem. -/
def c3Task : Task :=
  { id := "t0", title := "T", description := "", status := .backlog, projectId := "p0" }

theorem reach_worker_binding_invariant_witness :
    Reach c3Task
    ∧ ((some TaskStatus.backlog : Option TaskStatus) ≠ some TaskStatus.done)
    ∧ WorkerInv c3Task
    ∧ (∃ u, (handleStatusChange { now := "n" } c3Task (some .backlog) .done).1 = .ok u
        ∧ u.assignedWorker = some none ∧ u.workerStatus = some (some .closed))
    ∧ (∃ u, (handleStatusChange { now := "n" } c3Task (some .in_progress) .backlog).1 = .ok u
        ∧ u.assignedWorker = some none ∧ u.workerStatus = some none) :=
  ⟨Reach.init c3Task rfl,
   by decide,
   reach_worker_binding_invariant.1 c3Task (Reach.init c3Task rfl),
   reach_worker_binding_invariant.2.1 { now := "n" } c3Task (some .backlog) (by decide),
   reach_worker_binding_invariant.2.2 { now := "n" } c3Task⟩

/-- C7: a call with `oldStatus == newStatus` is a complete no-op: it returns
`{ok: true, updates: {}}` and issues no database write and no remote call
(the effect trace is empty). -/
theorem same_status_noop (env : Env) (t : Task) (s : TaskStatus) :
    handleStatusChange env t (some s) s = (.ok {}, []) := by
  unfold handleStatusChange
  rw [if_pos rfl]

/-- Environment with a failing project-path lookup (`getProjectPathById`
returns null), used for the C1 and C4 evidence. -/
def c1Env : Env := { now := "n1" }

/-- A backlog task whose project lookup will fail. -/
def c1Task : Task :=
  { id := "t1", title := "T", description := "", status := .backlog, projectId := "missing" }

/-- C1: evaluation of the 404 rejection path. The transition to in_progress
whose project-path lookup fails returns `{ok:false}` with status 404, but the
call has already persisted `workerStatus = "starting"` and never reverts it:
the task's row after the call differs from the row before it. -/
theorem rejected_404_mutates_row :
    (handleStatusChange c1Env c1Task (some .backlog) .in_progress).1
      = .err "Project not found" 404
    ∧ c1Task.workerStatus = none
    ∧ (applyDbWrites c1Env.now c1Task
        (handleStatusChange c1Env c1Task (some .backlog) .in_progress).2).workerStatus
      = some .starting := by decide

/-- A task with a worker currently starting. -/
def c4Task : Task :=
  { id := "t4", title := "T", description := "", status := .in_progress,
    projectId := "p", workerStatus := some .starting }

/-- C4 counterexample: for a task whose workerStatus is "starting", a call
with newStatus = in_progress and oldStatus = in_progress hits the
`oldStatus == newStatus` no-op branch before the guard, returning
`{ok:true}` rather than the claimed 409 conflict. -/
theorem guard_conflict_counterexample :
    c4Task.workerStatus = some WStatus.starting
    ∧ handleStatusChange c1Env c4Task (some .in_progress) .in_progress
        = (.ok {}, []) := by decide

/-- C4 (amended): for every task whose workerStatus is "starting" (or whose
assignedWorker is truthy while workerStatus is "running"), a call with
newStatus = in_progress and oldStatus ≠ in_progress returns `{ok:false}` with
status 409, and the effect trace is empty — in particular no spawnWorker call
is issued. -/
theorem spawn_guard_conflict (env : Env) (t : Task) (old : Option TaskStatus)
    (hold : old ≠ some .in_progress)
    (hguard : t.workerStatus = some WStatus.starting
      ∨ (truthyStr t.assignedWorker = true ∧ t.workerStatus = some WStatus.running)) :
    (∃ msg, (handleStatusChange env t old .in_progress).1 = .err msg 409)
    ∧ (handleStatusChange env t old .in_progress).2 = [] := by
  unfold handleStatusChange
  rw [if_neg hold]
  dsimp only
  unfold inProgressTransition
  rcases hguard with h | ⟨ha, hr⟩
  · rw [if_pos h]
    exact ⟨⟨_, rfl⟩, rfl⟩
  · rw [if_neg (by rw [hr]; decide)]
    rw [if_pos (by rw [ha, hr]; decide)]
    exact ⟨⟨_, rfl⟩, rfl⟩

theorem spawn_guard_conflict_witness :
    ((some TaskStatus.backlog : Option TaskStatus) ≠ some TaskStatus.in_progress)
    ∧ (c4Task.workerStatus = some WStatus.starting
        ∨ (truthyStr c4Task.assignedWorker = true ∧ c4Task.workerStatus = some WStatus.running))
    ∧ ((∃ msg, (handleStatusChange c1Env c4Task (some .backlog) .in_progress).1 = .err msg 409)
        ∧ (handleStatusChange c1Env c4Task (some .backlog) .in_progress).2 = []) :=
  ⟨by decide, Or.inl rfl,
   spawn_guard_conflict c1Env c4Task (some .backlog) (by decide) (Or.inl rfl)⟩

/-- The spawn outcome is a failure: an explicit `{success:false}` result or a
rejected promise. -/
def spawnFails (o : SpawnOutcome) : Prop :=
  (∃ e, o = .failed e) ∨ (∃ m, o = .thrown m)

/-- The error message surfaced to the caller for a failing spawn outcome
(meaningless for a successful outcome). -/
def spawnFailReason : SpawnOutcome → String
  | .failed e => spawnFailMessage e
  | .thrown m => m
  | .ok _ => ""

/-- C5: on a transition to in_progress that reaches a failing spawn, the call
returns `{ok:false}` with status 400 carrying the failure reason, and the
persisted row after replaying the call's writes has `workerStatus = null` —
it is not left showing "starting". -/
theorem spawn_failure_cleanup (env : Env) (t : Task) (old : Option TaskStatus)
    (hold : old ≠ some .in_progress)
    (hg1 : t.workerStatus ≠ some WStatus.starting)
    (hg2 : ¬(truthyStr t.assignedWorker = true ∧ t.workerStatus = some WStatus.running))
    (hp : truthyStr env.projectPath = true)
    (hs : spawnFails env.spawn) :
    (handleStatusChange env t old .in_progress).1
      = .err (spawnFailReason env.spawn) 400
    ∧ (applyDbWrites env.now t
        (handleStatusChange env t old .in_progress).2).workerStatus = none := by
  unfold handleStatusChange
  rw [if_neg hold]
  dsimp only
  unfold inProgressTransition
  rw [if_neg hg1]
  have hgb : ¬((truthyStr t.assignedWorker && (t.workerStatus == some WStatus.running)) = true) := by
    intro hc
    simp only [Bool.and_eq_true, beq_iff_eq] at hc
    exact hg2 hc
  rw [if_neg hgb, if_pos hp]
  rcases hs with ⟨e, he⟩ | ⟨m, hm⟩
  · rw [he]
    dsimp only [spawnFailReason]
    refine ⟨rfl, ?_⟩
    simp [applyDbWrites, applyUpdate_id, applyUpdate_workerStatus]
  · rw [hm]
    dsimp only [spawnFailReason]
    refine ⟨rfl, ?_⟩
    simp [applyDbWrites, applyUpdate_id, applyUpdate_workerStatus]

/-- Environment with a resolvable project path and a failing spawn. -/
def c5Env : Env :=
  { now := "n5", projectPath := some "/p", spawn := .failed (some "boom") }

theorem spawn_failure_cleanup_witness :
    ((some TaskStatus.backlog : Option TaskStatus) ≠ some TaskStatus.in_progress)
    ∧ c3Task.workerStatus ≠ some WStatus.starting
    ∧ ¬(truthyStr c3Task.assignedWorker = true ∧ c3Task.workerStatus = some WStatus.running)
    ∧ truthyStr c5Env.projectPath = true
    ∧ spawnFails c5Env.spawn
    ∧ ((handleStatusChange c5Env c3Task (some .backlog) .in_progress).1
        = .err (spawnFailReason c5Env.spawn) 400
       ∧ (applyDbWrites c5Env.now c3Task
           (handleStatusChange c5Env c3Task (some .backlog) .in_progress).2).workerStatus
        = none) :=
  ⟨by decide, by decide, by decide, by decide, Or.inl ⟨some "boom", rfl⟩,
   spawn_failure_cleanup c5Env c3Task (some .backlog) (by decide) (by decide)
     (by decide) (by decide) (Or.inl ⟨some "boom", rfl⟩)⟩

/-- C8: pausing a task bound to a worker whose log fetch returns exactly
`[{role:"user",content:"a"},{role:"assistant",content:"b"}]` produces an
update set whose workerContext is "[user]: a\n[assistant]: b". -/
theorem pause_context_roundtrip (env : Env) (t : Task) (w : String)
    (hw : t.assignedWorker = some w) (hw2 : ¬ w = "")
    (hlogs : env.logs = .ok [{ role := "user", content := .str "a" },
                             { role := "assistant", content := .str "b" }]) :
    ∃ u, (handleStatusChange env t (some .in_progress) .backlog).1 = .ok u
      ∧ u.workerContext = some (some "[user]: a\n[assistant]: b")
      ∧ u.assignedWorker = some none ∧ u.workerStatus = some none := by
  unfold handleStatusChange
  rw [if_neg (by decide), if_pos rfl]
  unfold pauseTransition
  have ha : truthyStr t.assignedWorker = true := by
    rw [hw]
    simp [truthyStr, hw2]
  rw [if_pos ha]
  dsimp only
  rw [hlogs]
  dsimp only
  refine ⟨_, rfl, ?_, rfl, rfl⟩
  show (contextUpdate env).workerContext = some (some "[user]: a\n[assistant]: b")
  unfold contextUpdate
  rw [hlogs]
  rfl

/-- Concrete task and environment for the C8 witness. -/
def c8Task : Task :=
  { id := "t8", title := "T", description := "", status := .in_progress,
    projectId := "p", assignedWorker := some "w1" }

def c8Env : Env :=
  { now := "n8", logs := .ok [{ role := "user", content := .str "a" },
                              { role := "assistant", content := .str "b" }] }

theorem pause_context_roundtrip_witness :
    c8Task.assignedWorker = some "w1"
    ∧ ¬ ("w1" = "")
    ∧ c8Env.logs = .ok [{ role := "user", content := .str "a" },
                        { role := "assistant", content := .str "b" }]
    ∧ (∃ u, (handleStatusChange c8Env c8Task (some .in_progress) .backlog).1 = .ok u
        ∧ u.workerContext = some (some "[user]: a\n[assistant]: b")
        ∧ u.assignedWorker = some none ∧ u.workerStatus = some none) :=
  ⟨rfl, by decide, rfl,
   pause_context_roundtrip c8Env c8Task "w1" rfl (by decide) rfl⟩

theorem jsSliceTo_length (n : Nat) (s : String) (h : n ≤ s.length) :
    (jsSliceTo n s).length = n := by
  have h2 : n ≤ s.data.length := h
  unfold jsSliceTo
  show (s.data.take n).length = n
  rw [List.length_take]
  exact Nat.min_eq_left h2

/-- C9: the formatted context is the join of the rendered trailing messages,
and each rendered message truncates its content to exactly the first
`CONTENT_TRUNCATE_LENGTH` characters when the content is a string longer than
the cap; non-string content never makes rendering fail — it is stringified
first and truncated to the same cap. -/
theorem format_truncation (logs : List WorkerLog) (hne : logs ≠ []) :
    formatWorkerContext logs
      = some (String.intercalate "\n" ((lastN CONTEXT_MESSAGE_LIMIT logs).map renderLog))
    ∧ (∀ (log : WorkerLog) (s : String), log.content = .str s →
        CONTENT_TRUNCATE_LENGTH < s.length →
        renderLog log = "[" ++ log.role ++ "]: " ++ jsSliceTo CONTENT_TRUNCATE_LENGTH s
        ∧ (jsSliceTo CONTENT_TRUNCATE_LENGTH s).length = CONTENT_TRUNCATE_LENGTH)
    ∧ (∀ (log : WorkerLog) (j : String), log.content = .nonString j →
        renderLog log = "[" ++ log.role ++ "]: " ++ jsSliceTo CONTENT_TRUNCATE_LENGTH j) := by
  refine ⟨?_, ?_, ?_⟩
  · unfold formatWorkerContext
    rw [if_neg (by simpa using hne)]
  · intro log s hc hlen
    constructor
    · unfold renderLog
      rw [hc]
    · exact jsSliceTo_length _ s (le_of_lt hlen)
  · intro log j hc
    unfold renderLog
    rw [hc]

/-- A 1001-character string, one over the truncation cap. -/
def c9Big : String := ⟨List.replicate 1001 'x'⟩

def c9Log : WorkerLog := { role := "assistant", content := .str c9Big }

def c9Obj : WorkerLog :=
  { role := "assistant", content := .nonString "\x7b\"key\":\"value\"\x7d" }

theorem format_truncation_witness :
    ([c9Log] ≠ ([] : List WorkerLog))
    ∧ c9Log.content = .str c9Big
    ∧ CONTENT_TRUNCATE_LENGTH < c9Big.length
    ∧ c9Obj.content = .nonString "\x7b\"key\":\"value\"\x7d"
    ∧ (renderLog c9Log = "[" ++ c9Log.role ++ "]: " ++ jsSliceTo CONTENT_TRUNCATE_LENGTH c9Big
       ∧ (jsSliceTo CONTENT_TRUNCATE_LENGTH c9Big).length = CONTENT_TRUNCATE_LENGTH)
    ∧ renderLog c9Obj
        = "[" ++ c9Obj.role ++ "]: " ++ jsSliceTo CONTENT_TRUNCATE_LENGTH "\x7b\"key\":\"value\"\x7d" :=
  ⟨by simp, rfl,
   by
     show (1000 : Nat) < (List.replicate 1001 'x').length
     rw [List.length_replicate]
     norm_num,
   rfl,
   (format_truncation [c9Log] (by simp)).2.1 c9Log c9Big rfl
     (by
       show (1000 : Nat) < (List.replicate 1001 'x').length
       rw [List.length_replicate]
       norm_num),
   (format_truncation [c9Log] (by simp)).2.2 c9Obj "\x7b\"key\":\"value\"\x7d" rfl⟩

/-- The ephemeral worker record (`types.ts Worker` as normalised by the
remote client); the status is a string because the previous-status map of the
sync state stores strings. -/
structure Worker where
  id : String
  name : String
  status : String
  currentTask : Option String := none
  taskTitle : Option String := none
  annot : Option String := none
  worktreePath : Option String := none
  projectPath : Option String := none
  isIdle : Bool := false
deriving DecidableEq, Repr

/-- `state.ts SyncState`: the mutable per-process sync state. Maps are
association lists whose most recent entry wins (`Map.set` semantics via
prepend-and-first-lookup); the notified set is a duplicate-free list. -/
structure SyncState where
  lastWorkerState : String := ""
  previousStatuses : List (String × String) := []
  notified : List String := []
  lastLogCounts : List (String × Nat) := []
deriving DecidableEq, Repr

/-- `SyncState.getPreviousStatus`. -/
def getPrev (st : SyncState) (k : String) : Option String :=
  st.previousStatuses.lookup k

/-- `SyncState.setPreviousStatus` (`Map.set`). -/
def setPrev (st : SyncState) (k v : String) : SyncState :=
  { st with previousStatuses := (k, v) :: st.previousStatuses }

/-- `SyncState.hasNotified` (`Set.has`). -/
def hasNotified (st : SyncState) (k : String) : Bool :=
  st.notified.contains k

/-- `SyncState.markNotified` (`Set.add`). -/
def markNotified (st : SyncState) (k : String) : SyncState :=
  if st.notified.contains k then st else { st with notified := k :: st.notified }

/-- `SyncState.clearNotified` (`Set.delete`). -/
def clearNotified (st : SyncState) (k : String) : SyncState :=
  { st with notified := st.notified.erase k }

/-- `db.ts getTaskByWorkerId`: the task row whose assigned_worker equals the
given id. -/
def getTaskByWorkerId (db : List Task) (workerId : String) : Option Task :=
  db.find? (fun t => t.assignedWorker == some workerId)

/-- `db.ts getTaskById` over the modelled row list. -/
def getTaskByIdInDb (db : List Task) (id : String) : Option Task :=
  db.find? (fun t => t.id == id)

/-- `taskLookup.ts findTaskForWorker`: by worker id, then worker name, then
(`worker.currentTask && getTaskById(...)`, skipping a falsy currentTask). -/
def findTaskForWorker (db : List Task) (w : Worker) : Option Task :=
  match getTaskByWorkerId db w.id with
  | some t => some t
  | none =>
    match getTaskByWorkerId db w.name with
    | some t => some t
    | none =>
      match w.currentTask with
      | some ct => if ct = "" then none else getTaskByIdInDb db ct
      | none => none

/-- `enrichWorkers.ts enrichWorkersWithTasks`: attach task id/title to each
worker by matching assignedWorker against worker id/name or task id against
currentTask (JS `||` falsiness preserved). -/
def enrichWorkersWithTasks (workers : List Worker) (tasks : List Task) : List Worker :=
  workers.map (fun w =>
    match tasks.find? (fun t =>
        t.assignedWorker == some w.id || t.assignedWorker == some w.name
          || some t.id == w.currentTask) with
    | some t =>
      { w with
        currentTask := if t.id = "" then w.currentTask else some t.id
        taskTitle := if t.title = "" then none else some t.title }
    | none => { w with taskTitle := none })

/-- `db.ts updateTask` lifted to the modelled row list. -/
def dbUpdateTask (now : String) (db : List Task) (id : String)
    (u : UpdateTaskInput) : List Task :=
  db.map (fun t => if t.id = id then applyUpdate now t u else t)

/-- Environment of one monitor tick: clock, per-worker log-fetch outcomes,
per-worker review-notification outcomes (`notifyClawForReview` resolves to a
boolean and never rejects), and the serialization oracles standing for
`JSON.stringify`. -/
structure MonEnv where
  now : String
  logsOf : String → Except String (List WorkerLog) := fun _ => .ok []
  notifyOf : String → Bool := fun _ => false
  stringifyLogs : List WorkerLog → String := fun _ => "[]"
  stringifyWorkers : List Worker → String := fun _ => ""

/-- The loop body of `workerMonitor.ts monitorWorkers` for a single worker:
idle forcing, idle-edge detection, reviewing-update with best-effort log
save, immediate task broadcast, review notification with success-only
notified-marking, non-idle flag clearing, and previous-status recording
keyed by both id and name. -/
def processWorker (env : MonEnv) (st : SyncState) (db : List Task) (w : Worker) :
    SyncState × List Task × Worker × List Effect :=
  let wasIdle := getPrev st w.id == some "idle"
  if w.isIdle then
    let w := { w with status := "idle" }
    let inner : SyncState × List Task × List Effect :=
      if !wasIdle && !(hasNotified st w.id) then
        match findTaskForWorker db w with
        | some task =>
          if task.status = .in_progress then
            let fetched : List Task × List Effect :=
              match env.logsOf w.id with
              | .ok logs =>
                if logs.length > 0 then
                  (dbUpdateTask env.now db task.id
                     { workerStatus := some (some .reviewing),
                       logs := some (some (env.stringifyLogs logs)) },
                   [Effect.getLogsCall w.id])
                else
                  (dbUpdateTask env.now db task.id { workerStatus := some (some .reviewing) },
                   [Effect.getLogsCall w.id])
              | .error _ =>
                (dbUpdateTask env.now db task.id { workerStatus := some (some .reviewing) },
                 [Effect.getLogsCall w.id])
            let st2 := if env.notifyOf w.id then markNotified st w.id else st
            (st2, fetched.1,
             fetched.2 ++ [Effect.broadcastTasksCall, Effect.notifyCall w.id task.id])
          else (st, db, [])
        | none => (st, db, [])
      else (st, db, [])
    (setPrev (setPrev inner.1 w.id w.status) w.name w.status, inner.2.1, w, inner.2.2)
  else
    let st2 := clearNotified st w.id
    (setPrev (setPrev st2 w.id w.status) w.name w.status, db, w, [])

/-- The worker loop of a monitor tick, folded left to right over the fetched
worker list, threading sync state and the task rows and collecting the
(possibly status-mutated) workers and the effect trace. -/
def processWorkers (env : MonEnv) (st : SyncState) (db : List Task) :
    List Worker → SyncState × List Task × List Worker × List Effect
  | [] => (st, db, [], [])
  | w :: rest =>
    let r1 := processWorker env st db w
    let r2 := processWorkers env r1.1 r1.2.1 rest
    (r2.1, r2.2.1, r1.2.2.1 :: r2.2.2.1, r1.2.2.2 ++ r2.2.2.2)

/-- `workerMonitor.ts monitorWorkers` on an already-fetched worker list: the
per-worker loop, then the enriched-list serialization and change-gated
broadcast. -/
def monitorWorkers (env : MonEnv) (st : SyncState) (db : List Task)
    (workerList : List Worker) : SyncState × List Task × List Effect :=
  let r := processWorkers env st db workerList
  let enriched := enrichWorkersWithTasks r.2.2.1 r.2.1
  let currentState := env.stringifyWorkers enriched
  if currentState ≠ r.1.lastWorkerState then
    ({ r.1 with lastWorkerState := currentState }, r.2.1,
     r.2.2.2 ++ [Effect.broadcastWorkersCall])
  else (r.1, r.2.1, r.2.2.2)

/-- An in-progress task bound to worker "w1". -/
def c2Task : Task :=
  { id := "t1", title := "T", description := "", status := .in_progress,
    projectId := "p1", assignedWorker := some "w1", workerStatus := some .running }

/-- Worker "w1", reported idle by the remote service. -/
def c2Worker : Worker := { id := "w1", name := "w1", status := "busy", isIdle := true }

/-- Monitor environment in which every review notification fails
(the default `notifyOf` returns false). -/
def c2MonEnv : MonEnv := { now := "n" }

/-- C2: evaluation of the two-tick scenario. On the first tick the worker is
first observed idle, unnotified, with a bound in_progress task, and the
notification call fails: the tick issues the notification call and leaves
the notified flag unset. On the second tick the same worker is still idle
and still unnotified, yet the tick issues no effect at all — in particular
the notification call is NOT retried, because the previous recorded status
is now "idle" and the `!wasIdle` edge condition fails. -/
theorem monitor_no_retry_while_idle :
    c2Worker.isIdle = true
    ∧ (monitorWorkers c2MonEnv {} [c2Task] [c2Worker]).2.2.contains
        (Effect.notifyCall "w1" "t1") = true
    ∧ (monitorWorkers c2MonEnv {} [c2Task] [c2Worker]).1.notified = []
    ∧ getPrev (monitorWorkers c2MonEnv {} [c2Task] [c2Worker]).1 "w1" = some "idle"
    ∧ (monitorWorkers c2MonEnv
        (monitorWorkers c2MonEnv {} [c2Task] [c2Worker]).1
        (monitorWorkers c2MonEnv {} [c2Task] [c2Worker]).2.1
        [c2Worker]).2.2 = [] := by decide

theorem processWorker_notify_id (env : MonEnv) (st : SyncState) (db : List Task)
    (w : Worker) (k tid : String)
    (h : Effect.notifyCall k tid ∈ (processWorker env st db w).2.2.2) : k = w.id := by
  unfold processWorker at h
  split at h
  · dsimp only at h
    repeat' split at h
    all_goals simp_all
  · simp at h

theorem markNotified_previousStatuses (st : SyncState) (k : String) :
    (markNotified st k).previousStatuses = st.previousStatuses := by
  unfold markNotified
  split <;> rfl

theorem markNotified_mem (st : SyncState) (k a : String) :
    a ∈ (markNotified st k).notified ↔ a = k ∨ a ∈ st.notified := by
  unfold markNotified
  split
  · rename_i hc
    constructor
    · exact Or.inr
    · rintro (rfl | h)
      · exact List.elem_iff.mp hc
      · exact h
  · simp [List.mem_cons]

theorem processWorker_notified_other (env : MonEnv) (st : SyncState) (db : List Task)
    (w : Worker) (k : String) (hne : w.id ≠ k) :
    k ∈ (processWorker env st db w).1.notified ↔ k ∈ st.notified := by
  have hkk : k ≠ w.id := fun hh => hne hh.symm
  unfold processWorker
  split
  · dsimp only
    repeat' split
    all_goals
      simp_all [setPrev, clearNotified, markNotified_mem, List.mem_erase_of_ne hkk]
  · dsimp only
    simp_all [setPrev, clearNotified, markNotified_mem, List.mem_erase_of_ne hkk]

theorem getPrev_setPrev_ne (st : SyncState) (k v a : String) (h : a ≠ k) :
    getPrev (setPrev st k v) a = getPrev st a := by
  unfold getPrev setPrev
  simp [List.lookup, beq_eq_false_iff_ne.mpr h]

theorem getPrev_markNotified (st : SyncState) (k a : String) :
    getPrev (markNotified st k) a = getPrev st a := by
  unfold getPrev
  rw [markNotified_previousStatuses]

theorem processWorker_prev_other (env : MonEnv) (st : SyncState) (db : List Task)
    (w : Worker) (k : String) (h1 : w.id ≠ k) (h2 : w.name ≠ k) :
    getPrev (processWorker env st db w).1 k = getPrev st k := by
  unfold processWorker
  split
  · dsimp only
    repeat' split
    all_goals
      rw [getPrev_setPrev_ne _ _ _ _ (fun hh => h2 hh.symm),
        getPrev_setPrev_ne _ _ _ _ (fun hh => h1 hh.symm)]
      try rw [getPrev_markNotified]
  · dsimp only
    rw [getPrev_setPrev_ne _ _ _ _ (fun hh => h2 hh.symm),
      getPrev_setPrev_ne _ _ _ _ (fun hh => h1 hh.symm)]
    rfl

/-- A row transformation that preserves the fields used to locate a task and
to check its status. -/
def FieldPreserving (f : Task → Task) : Prop :=
  ∀ t, (f t).id = t.id ∧ (f t).status = t.status ∧ (f t).assignedWorker = t.assignedWorker

theorem fieldPreserving_id : FieldPreserving id :=
  fun _ => ⟨rfl, rfl, rfl⟩

theorem fieldPreserving_comp {f g : Task → Task}
    (hf : FieldPreserving f) (hg : FieldPreserving g) : FieldPreserving (g ∘ f) :=
  fun t => ⟨((hg (f t)).1).trans (hf t).1,
    ((hg (f t)).2.1).trans (hf t).2.1,
    ((hg (f t)).2.2).trans (hf t).2.2⟩

theorem dbUpdateTask_map (now : String) (db : List Task) (id : String)
    (u : UpdateTaskInput) (h1 : u.status = none) (h2 : u.assignedWorker = none) :
    ∃ f, dbUpdateTask now db id u = db.map f ∧ FieldPreserving f := by
  refine ⟨fun t => if t.id = id then applyUpdate now t u else t, rfl, fun t => ?_⟩
  by_cases h : t.id = id
  · simp [h, applyUpdate_id, applyUpdate_status, applyUpdate_assignedWorker, h1, h2]
  · simp [h]

theorem processWorker_db (env : MonEnv) (st : SyncState) (db : List Task) (w : Worker) :
    ∃ f, (processWorker env st db w).2.1 = db.map f ∧ FieldPreserving f := by
  unfold processWorker
  split
  · dsimp only
    repeat' split
    all_goals
      first
        | exact dbUpdateTask_map env.now db _ _ rfl rfl
        | exact ⟨id, by simp, fieldPreserving_id⟩
  · exact ⟨id, by simp, fieldPreserving_id⟩

theorem getTaskByWorkerId_map (db : List Task) (f : Task → Task) (k : String)
    (hf : FieldPreserving f) :
    getTaskByWorkerId (db.map f) k = (getTaskByWorkerId db k).map f := by
  unfold getTaskByWorkerId
  have hp : ((fun t => t.assignedWorker == some k) ∘ f)
      = (fun t : Task => t.assignedWorker == some k) := by
    funext t
    simp [Function.comp, (hf t).2.2]
  rw [List.find?_map, hp]

theorem getTaskByIdInDb_map (db : List Task) (f : Task → Task) (k : String)
    (hf : FieldPreserving f) :
    getTaskByIdInDb (db.map f) k = (getTaskByIdInDb db k).map f := by
  unfold getTaskByIdInDb
  have hp : ((fun t => t.id == k) ∘ f) = (fun t : Task => t.id == k) := by
    funext t
    simp [Function.comp, (hf t).1]
  rw [List.find?_map, hp]

theorem findTaskForWorker_map (db : List Task) (f : Task → Task) (w : Worker)
    (hf : FieldPreserving f) :
    findTaskForWorker (db.map f) w = (findTaskForWorker db w).map f := by
  unfold findTaskForWorker
  rw [getTaskByWorkerId_map db f w.id hf, getTaskByWorkerId_map db f w.name hf]
  cases getTaskByWorkerId db w.id with
  | some t => rfl
  | none =>
    cases getTaskByWorkerId db w.name with
    | some t => rfl
    | none =>
      cases w.currentTask with
      | none => rfl
      | some ct =>
        by_cases hc : ct = ""
        · simp [hc]
        · simp [hc, getTaskByIdInDb_map db f ct hf]

theorem processWorkers_preserve (env : MonEnv) (k : String) :
    ∀ (ws : List Worker) (st : SyncState) (db : List Task),
    (∀ v ∈ ws, v.id ≠ k ∧ v.name ≠ k) →
    getPrev (processWorkers env st db ws).1 k = getPrev st k
    ∧ (k ∈ (processWorkers env st db ws).1.notified ↔ k ∈ st.notified)
    ∧ ∃ f, (processWorkers env st db ws).2.1 = db.map f ∧ FieldPreserving f := by
  intro ws
  induction ws with
  | nil =>
    intro st db _
    exact ⟨rfl, Iff.rfl, ⟨id, by simp [processWorkers], fieldPreserving_id⟩⟩
  | cons v rest ih =>
    intro st db h
    have hv := h v (List.mem_cons_self v rest)
    have hrest : ∀ x ∈ rest, x.id ≠ k ∧ x.name ≠ k :=
      fun x hx => h x (List.mem_cons_of_mem v hx)
    obtain ⟨f1, hdb1, hf1⟩ := processWorker_db env st db v
    obtain ⟨ihp, ihn, f2, hdb2, hf2⟩ :=
      ih (processWorker env st db v).1 (processWorker env st db v).2.1 hrest
    refine ⟨?_, ?_, ?_⟩
    · show getPrev (processWorkers env (processWorker env st db v).1
        (processWorker env st db v).2.1 rest).1 k = getPrev st k
      rw [ihp, processWorker_prev_other env st db v k hv.1 hv.2]
    · show k ∈ (processWorkers env (processWorker env st db v).1
        (processWorker env st db v).2.1 rest).1.notified ↔ k ∈ st.notified
      rw [ihn, processWorker_notified_other env st db v k hv.1]
    · refine ⟨f2 ∘ f1, ?_, fieldPreserving_comp hf1 hf2⟩
      show (processWorkers env (processWorker env st db v).1
        (processWorker env st db v).2.1 rest).2.1 = db.map (f2 ∘ f1)
      rw [hdb2, hdb1, List.map_map]

theorem processWorkers_notified_sub (env : MonEnv) (k : String) :
    ∀ (ws : List Worker) (st : SyncState) (db : List Task),
    (∀ v ∈ ws, v.id ≠ k) →
    (k ∈ (processWorkers env st db ws).1.notified ↔ k ∈ st.notified) := by
  intro ws
  induction ws with
  | nil => intro st db _; exact Iff.rfl
  | cons v rest ih =>
    intro st db h
    have hv := h v (List.mem_cons_self v rest)
    have hrest : ∀ x ∈ rest, x.id ≠ k := fun x hx => h x (List.mem_cons_of_mem v hx)
    show k ∈ (processWorkers env (processWorker env st db v).1
      (processWorker env st db v).2.1 rest).1.notified ↔ k ∈ st.notified
    rw [ih (processWorker env st db v).1 (processWorker env st db v).2.1 hrest,
      processWorker_notified_other env st db v k hv]

theorem processWorker_already_notified (env : MonEnv) (st : SyncState)
    (db : List Task) (w : Worker)
    (hidle : w.isIdle = true) (hnot : w.id ∈ st.notified) :
    (processWorker env st db w).2.2.2 = []
    ∧ (processWorker env st db w).1.notified = st.notified
    ∧ (processWorker env st db w).2.1 = db := by
  have hc : st.notified.contains w.id = true := List.elem_iff.mpr hnot
  have hcond : (!(getPrev st w.id == some "idle") && !(hasNotified st w.id)) = false := by
    unfold hasNotified
    rw [hc]
    simp
  unfold processWorker
  rw [if_pos hidle]
  dsimp only
  rw [if_neg (by rw [hcond]; simp)]
  exact ⟨rfl, rfl, rfl⟩

theorem processWorkers_no_renotify (env : MonEnv) (k : String) :
    ∀ (ws : List Worker) (st : SyncState) (db : List Task),
    k ∈ st.notified →
    (∀ v ∈ ws, v.id = k → v.isIdle = true) →
    k ∈ (processWorkers env st db ws).1.notified
    ∧ ∀ tid, Effect.notifyCall k tid ∉ (processWorkers env st db ws).2.2.2 := by
  intro ws
  induction ws with
  | nil =>
    intro st db hmem _
    exact ⟨hmem, fun tid h => by simp [processWorkers] at h⟩
  | cons v rest ih =>
    intro st db hmem hws
    have hrest : ∀ x ∈ rest, x.id = k → x.isIdle = true :=
      fun x hx => hws x (List.mem_cons_of_mem v hx)
    have hstep : k ∈ (processWorker env st db v).1.notified := by
      by_cases hvk : v.id = k
      · have hidle := hws v (List.mem_cons_self v rest) hvk
        have h2 := (processWorker_already_notified env st db v hidle (hvk ▸ hmem)).2.1
        rw [h2]
        exact hmem
      · exact (processWorker_notified_other env st db v k hvk).mpr hmem
    obtain ⟨ih1, ih2⟩ :=
      ih (processWorker env st db v).1 (processWorker env st db v).2.1 hstep hrest
    refine ⟨ih1, fun tid h => ?_⟩
    have hsplit : Effect.notifyCall k tid ∈ (processWorker env st db v).2.2.2
        ∨ Effect.notifyCall k tid ∈ (processWorkers env (processWorker env st db v).1
            (processWorker env st db v).2.1 rest).2.2.2 := by
      simpa [processWorkers] using h
    rcases hsplit with h | h
    · by_cases hvk : v.id = k
      · have hidle := hws v (List.mem_cons_self v rest) hvk
        have h1 := (processWorker_already_notified env st db v hidle (hvk ▸ hmem)).1
        rw [h1] at h
        simp at h
      · exact hvk ((processWorker_notify_id env st db v k tid h).symm)
    · exact ih2 tid h

theorem monitorWorkers_notified (env : MonEnv) (st : SyncState) (db : List Task)
    (ws : List Worker) :
    (monitorWorkers env st db ws).1.notified = (processWorkers env st db ws).1.notified := by
  unfold monitorWorkers
  dsimp only
  split <;> rfl

theorem monitorWorkers_effects (env : MonEnv) (st : SyncState) (db : List Task)
    (ws : List Worker) :
    (monitorWorkers env st db ws).2.2 = (processWorkers env st db ws).2.2.2
    ∨ (monitorWorkers env st db ws).2.2
        = (processWorkers env st db ws).2.2.2 ++ [Effect.broadcastWorkersCall] := by
  unfold monitorWorkers
  dsimp only
  split
  · exact Or.inr rfl
  · exact Or.inl rfl

theorem processWorkers_append_state (env : MonEnv) :
    ∀ (l1 l2 : List Worker) (st : SyncState) (db : List Task),
    (processWorkers env st db (l1 ++ l2)).1
      = (processWorkers env (processWorkers env st db l1).1
          (processWorkers env st db l1).2.1 l2).1 := by
  intro l1
  induction l1 with
  | nil => intro l2 st db; rfl
  | cons v rest ih =>
    intro l2 st db
    show (processWorkers env (processWorker env st db v).1
        (processWorker env st db v).2.1 (rest ++ l2)).1 = _
    rw [ih l2 (processWorker env st db v).1 (processWorker env st db v).2.1]
    rfl

theorem processWorker_idle_edge (env : MonEnv) (st : SyncState) (db : List Task)
    (w : Worker) (task : Task)
    (hidle : w.isIdle = true)
    (hprev : getPrev st w.id ≠ some "idle")
    (hnot : w.id ∉ st.notified)
    (hfind : findTaskForWorker db w = some task)
    (hst : task.status = .in_progress) :
    (w.id ∈ (processWorker env st db w).1.notified ↔ env.notifyOf w.id = true) := by
  have hc1 : (getPrev st w.id == some "idle") = false := by simp [hprev]
  have hc2 : hasNotified st w.id = false := by
    unfold hasNotified
    exact Bool.eq_false_iff.mpr (fun hc => hnot (List.elem_iff.mp hc))
  unfold processWorker
  rw [if_pos hidle]
  dsimp only
  rw [if_pos (by simp [hc1, hc2])]
  rw [show findTaskForWorker db { w with status := "idle" }
      = findTaskForWorker db w from rfl, hfind]
  dsimp only
  rw [if_pos hst]
  dsimp only
  by_cases hn : env.notifyOf w.id = true
  · rw [if_pos hn]
    simp [setPrev, markNotified_mem, hn]
  · rw [if_neg hn]
    simp only [setPrev]
    exact iff_of_false hnot (by simpa using hn)

/-- C6: on a monitor tick whose worker list contains a worker `w` that is
reported idle, whose previous recorded status is not idle, whose notified
flag is unset, and for which a bound task with status in_progress exists
(worker ids and the other workers' names being distinct from `w.id`): after
the tick the notified flag for `w.id` is set if and only if the notification
call reported success; and on any later tick on which every worker carrying
`w.id` is still idle and the flag is set, no notification call for `w.id` is
issued. -/
theorem idle_edge_notification (env : MonEnv) (st : SyncState) (db : List Task)
    (pre post : List Worker) (w : Worker) (task : Task)
    (hpre : ∀ v ∈ pre, v.id ≠ w.id ∧ v.name ≠ w.id)
    (hpost : ∀ v ∈ post, v.id ≠ w.id)
    (hidle : w.isIdle = true)
    (hprev : getPrev st w.id ≠ some "idle")
    (hnot : w.id ∉ st.notified)
    (hfind : findTaskForWorker db w = some task)
    (hst : task.status = .in_progress) :
    (w.id ∈ (monitorWorkers env st db (pre ++ w :: post)).1.notified
      ↔ env.notifyOf w.id = true)
    ∧ (∀ (env2 : MonEnv) (st2 : SyncState) (db2 : List Task) (ws2 : List Worker),
        w.id ∈ st2.notified →
        (∀ v ∈ ws2, v.id = w.id → v.isIdle = true) →
        ∀ tid, Effect.notifyCall w.id tid ∉ (monitorWorkers env2 st2 db2 ws2).2.2) := by
  constructor
  · rw [monitorWorkers_notified, processWorkers_append_state]
    obtain ⟨hp, hn, f, hdb, hf⟩ := processWorkers_preserve env w.id pre st db hpre
    have hfind2 : findTaskForWorker (processWorkers env st db pre).2.1 w = some (f task) := by
      rw [hdb, findTaskForWorker_map db f w hf, hfind]
      rfl
    have hst2 : (f task).status = .in_progress := by rw [(hf task).2.1, hst]
    show w.id ∈ (processWorkers env
        (processWorker env (processWorkers env st db pre).1
          (processWorkers env st db pre).2.1 w).1
        (processWorker env (processWorkers env st db pre).1
          (processWorkers env st db pre).2.1 w).2.1 post).1.notified
      ↔ env.notifyOf w.id = true
    rw [processWorkers_notified_sub env w.id post _ _ hpost]
    exact processWorker_idle_edge env (processWorkers env st db pre).1
      (processWorkers env st db pre).2.1 w (f task) hidle
      (by rw [hp]; exact hprev) (fun hne => hnot (hn.mp hne)) hfind2 hst2
  · intro env2 st2 db2 ws2 hmem hid tid hin
    rcases monitorWorkers_effects env2 st2 db2 ws2 with he | he
    · rw [he] at hin
      exact (processWorkers_no_renotify env2 w.id ws2 st2 db2 hmem hid).2 tid hin
    · rw [he] at hin
      rcases List.mem_append.mp hin with h | h
      · exact (processWorkers_no_renotify env2 w.id ws2 st2 db2 hmem hid).2 tid h
      · simp at h

/-- Monitor environment whose review notification succeeds. -/
def c6Env : MonEnv := { now := "n", notifyOf := fun _ => true }

theorem idle_edge_notification_witness :
    (∀ v ∈ ([] : List Worker), v.id ≠ c2Worker.id ∧ v.name ≠ c2Worker.id)
    ∧ (∀ v ∈ ([] : List Worker), v.id ≠ c2Worker.id)
    ∧ c2Worker.isIdle = true
    ∧ getPrev ({} : SyncState) c2Worker.id ≠ some "idle"
    ∧ c2Worker.id ∉ ({} : SyncState).notified
    ∧ findTaskForWorker [c2Task] c2Worker = some c2Task
    ∧ c2Task.status = .in_progress
    ∧ ("w1" ∈ (monitorWorkers c6Env {} [c2Task] ([] ++ c2Worker :: [])).1.notified
        ↔ c6Env.notifyOf "w1" = true)
    ∧ ("w1" ∈ ({ notified := ["w1"] } : SyncState).notified)
    ∧ (∀ v ∈ [c2Worker], v.id = "w1" → v.isIdle = true)
    ∧ Effect.notifyCall "w1" "t9"
        ∉ (monitorWorkers c2MonEnv { notified := ["w1"] } [c2Task] [c2Worker]).2.2 :=
  ⟨by simp, by simp, rfl, by decide, by simp, by decide, rfl,
   (idle_edge_notification c6Env {} [c2Task] [] [] c2Worker c2Task
      (by simp) (by simp) rfl (by decide) (by simp) (by decide) rfl).1,
   by simp,
   by decide,
   (idle_edge_notification c6Env {} [c2Task] [] [] c2Worker c2Task
      (by simp) (by simp) rfl (by decide) (by simp) (by decide) rfl).2
     c2MonEnv { notified := ["w1"] } [c2Task] [c2Worker] (by simp [c2Worker]) (by decide) "t9"⟩

/-- Cached connection state of the remote client module (`claudeTeam.ts`
module-level `client`/`transport`/`connectionPromise`). -/
structure ClientState where
  connected : Bool := false
deriving DecidableEq, Repr

/-- `claudeTeam.ts resetClient`: close and drop the cached client so the
next call attempts a fresh connection. -/
def resetClient (_ : ClientState) : ClientState := { connected := false }

/-- Outcome of `await getClient()` followed by `await callTool(...)` as seen
by one exported operation: the awaited chain rejects with an error, or it
resolves and its text content takes the given parse shape. -/
inductive RemoteOutcome (α : Type)
  | throws (msg : String)
  | ok (payload : α)
deriving DecidableEq, Repr

/-- A raw worker record from the remote payload (`Record<string, unknown>`);
each historical field-name alias is a possibly-absent string
(source fields `annotation`/`coordinator_annotation` are `annot`/
`coordinator_annot` here). -/
structure RawWorker where
  name : Option String := none
  worker_name : Option String := none
  annot : Option String := none
  session_name : Option String := none
  session_id : Option String := none
  id : Option String := none
  worker_id : Option String := none
  coordinator_annot : Option String := none
  status : Option String := none
  worktree_path : Option String := none
  project_path : Option String := none
  main_repo_path : Option String := none
  is_idle : Option Bool := none
deriving DecidableEq, Repr

/-- JS substring test (`normalized.includes(pat)`), for a non-empty
pattern. -/
def strContains (s pat : String) : Bool := decide (1 < (s.splitOn pat).length)

/-- `claudeTeam.ts mapStatus`. -/
def mapStatus (status : Option String) : String :=
  let normalized := (status.getD "").toLower
  if strContains normalized "spawn" then "spawning"
  else if strContains normalized "ready" || strContains normalized "active" then "active"
  else if strContains normalized "busy" then "busy"
  else if strContains normalized "idle" then "idle"
  else if strContains normalized "closed" then "closed"
  else "idle"

/-- First truthy value of a JS `a || b || ...` chain over possibly-undefined
strings, with a final default. -/
def firstTruthyStr : List (Option String) → String → String
  | [], dflt => dflt
  | some s :: rest, dflt => if s = "" then firstTruthyStr rest dflt else s
  | none :: rest, dflt => firstTruthyStr rest dflt

/-- JS `a || b` on two possibly-undefined strings, keeping the option. -/
def orOptTruthy (a b : Option String) : Option String :=
  if truthyStr a then a else b

/-- JS `String(x)` on a possibly-undefined string. -/
def jsStringOfOpt (o : Option String) : String := o.getD "undefined"

/-- `claudeTeam.ts mapToWorker`: normalise the loosely-typed remote payload,
checking the historical field-name aliases in priority order. -/
def mapToWorker (w : RawWorker) : Worker :=
  { id := firstTruthyStr [w.session_id, w.id, w.worker_id, w.annot] ""
    name := firstTruthyStr [w.name, w.worker_name, w.annot, w.session_name] "unknown"
    status := mapStatus w.status
    currentTask :=
      match w.coordinator_annot with
      | some s =>
        if s = "" then none
        else if s.startsWith "task-" then some (s.drop 5) else none
      | none => none
    annot :=
      match w.annot with
      | some s => if s = "" then none else some (jsStringOfOpt w.coordinator_annot)
      | none => none
    worktreePath := orOptTruthy w.worktree_path w.project_path
    projectPath := orOptTruthy w.main_repo_path w.project_path
    isIdle := w.is_idle == some true }

/-- Parse shape of a resolved `list_workers` response. -/
inductive ListPayload
  | noText
  | unparseable
  | arr (ws : List RawWorker)
  | objWorkers (ws : List RawWorker)
  | otherJson
deriving Repr

/-- The try block of `claudeTeam.ts listWorkers`; `.error` is the error
rethrown when the text content fails to parse as JSON. -/
def listWorkersTry : ListPayload → Except String (List Worker)
  | .noText => .ok []
  | .unparseable => .error "Failed to parse workers as JSON"
  | .arr ws => .ok (ws.map mapToWorker)
  | .objWorkers ws => .ok (ws.map mapToWorker)
  | .otherJson => .ok []

/-- `claudeTeam.ts listWorkers`: the catch handler turns every rejection of
the call (and the rethrown parse error) into a client reset plus an empty
array, so the operation never throws to its caller. -/
def listWorkers (st : ClientState) (o : RemoteOutcome ListPayload) :
    ClientState × List Worker :=
  match o with
  | .throws _ => (resetClient st, [])
  | .ok p =>
    match listWorkersTry p with
    | .ok ws => ({ connected := true }, ws)
    | .error _ => (resetClient st, [])

/-- A raw log entry from the remote payload. -/
structure RawLog where
  content : Option String := none
  message : Option String := none
  text : Option String := none
  role : Option String := none
  timestamp : Option String := none
deriving DecidableEq, Repr

/-- Parse shape of a resolved `read_worker_logs` response. -/
inductive LogsPayload
  | noText
  | parsedArr (msgs : List RawLog)
  | parsedNotArr
  | unparseable (rawText : String)
deriving DecidableEq, Repr

/-- The per-entry normalisation of `claudeTeam.ts getWorkerLogs`, keeping an
entry only when the sanitizer leaves non-empty content. The sanitizer
`strip` stands for the pure total `stripClaudeTeamSessionContent` (session
marker removal by regex rewriting); its value is irrelevant to the
control-flow claims and it is kept as a parameter. -/
def logEntryOf (strip : String → Option String) (log : RawLog) : Option WorkerLog :=
  let rawContent := firstTruthyStr [log.content, log.message, log.text] ""
  match strip rawContent with
  | some c =>
    some { role :=
             match log.role with
             | some r => if r = "" then "assistant" else r
             | none => "assistant"
           content := .str c
           timestamp := log.timestamp }
  | none => none

/-- `claudeTeam.ts getWorkerLogs`: on a rejected call the catch handler
resets the client and resolves with an empty array; a response that fails to
parse falls back to one stripped raw-text entry (or none), without a
reset. -/
def getWorkerLogs (strip : String → Option String) (st : ClientState)
    (o : RemoteOutcome LogsPayload) : ClientState × List WorkerLog :=
  match o with
  | .throws _ => (resetClient st, [])
  | .ok p =>
    match p with
    | .noText => ({ connected := true }, [])
    | .parsedNotArr => ({ connected := true }, [])
    | .parsedArr msgs => ({ connected := true }, msgs.filterMap (logEntryOf strip))
    | .unparseable text =>
      match strip text with
      | none => ({ connected := true }, [])
      | some c => ({ connected := true }, [{ role := "assistant", content := .str c }])

/-- C10: listWorkers and getWorkerLogs return plain lists for every outcome
(they are total functions into lists, never propagating an exception), and
on any connection or remote-call failure — a rejected call for either
operation, or the rethrown parse error of listWorkers, which reaches the
same catch — they reset the cached client and return the empty array. -/
theorem remote_client_best_effort (strip : String → Option String)
    (st : ClientState) (lo : RemoteOutcome ListPayload) (go : RemoteOutcome LogsPayload)
    (hlo : (∃ m, lo = .throws m) ∨ lo = .ok .unparseable)
    (hgo : ∃ m, go = .throws m) :
    listWorkers st lo = ({ connected := false }, [])
    ∧ getWorkerLogs strip st go = ({ connected := false }, []) := by
  constructor
  · rcases hlo with ⟨m, rfl⟩ | rfl
    · rfl
    · rfl
  · obtain ⟨m, rfl⟩ := hgo
    rfl

theorem remote_client_best_effort_witness :
    ((∃ m, (RemoteOutcome.throws "boom" : RemoteOutcome ListPayload) = .throws m)
      ∨ (RemoteOutcome.throws "boom" : RemoteOutcome ListPayload) = .ok .unparseable)
    ∧ (∃ m, (RemoteOutcome.throws "boom" : RemoteOutcome LogsPayload) = .throws m)
    ∧ (listWorkers { connected := true } (.throws "boom") = ({ connected := false }, [])
       ∧ getWorkerLogs (fun s => some s) { connected := true } (.throws "boom")
          = ({ connected := false }, [])) :=
  ⟨Or.inl ⟨"boom", rfl⟩, ⟨"boom", rfl⟩,
   remote_client_best_effort (fun s => some s) { connected := true }
     (.throws "boom") (.throws "boom") (Or.inl ⟨"boom", rfl⟩) ⟨"boom", rfl⟩⟩

end ClawMachine
